/-
  Verification of the beach-buggy-racing session layer.

  Shallow embedding of:
    - server/roomManager.js   (RoomManager, Room, Player)
    - server/gameState.js     (GameState: race state machine)
    - server/server.js        (disconnect handler, validateInput)
    - public/js/shared/inputBuffer.js (InputBuffer, InputValidator)

  JavaScript numbers are modelled as ℚ where fractional values matter
  (input samples) and as ℤ for millisecond timestamps.  `NaN` is modelled
  explicitly where the code can produce or receive it (`Option ℚ`, with
  `none` = NaN).  `Date.now()` is passed in as an explicit `now` argument.
-/
import Mathlib

set_option maxRecDepth 4000

namespace BeachBuggy

open scoped List

/-! ## public/js/shared/inputBuffer.js — InputBuffer -/

/-- An entry of `InputBuffer.inputs`: `{ sequence, input: {...input}, timestamp: Date.now() }`. -/
structure SequencedInput (α : Type) where
  sequence : Nat
  input : α
  timestamp : Int
  deriving Repr, DecidableEq

/-- `class InputBuffer { constructor(bufferSize = 60) ... }` state. -/
structure InputBuffer (α : Type) where
  inputs : List (SequencedInput α)
  bufferSize : Nat
  sequenceNumber : Nat
  lastAcknowledgedSequence : Nat
  deriving Repr, DecidableEq

/-- `new InputBuffer()` with the default capacity 60. -/
def InputBuffer.new (α : Type) : InputBuffer α :=
  { inputs := [], bufferSize := 60, sequenceNumber := 0, lastAcknowledgedSequence := 0 }

/-- `InputBuffer.addInput(input)`: increments the sequence counter, appends the
sequenced entry, and `shift()`s the oldest entry when the length exceeds
`bufferSize`.  Returns the new buffer and the buffered entry. -/
def InputBuffer.addInput (b : InputBuffer α) (input : α) (now : Int) :
    InputBuffer α × SequencedInput α :=
  let seq := b.sequenceNumber + 1
  let bufferedInput : SequencedInput α := { sequence := seq, input := input, timestamp := now }
  let inputs := b.inputs ++ [bufferedInput]
  let inputs := if b.bufferSize < inputs.length then inputs.drop 1 else inputs
  ({ b with inputs := inputs, sequenceNumber := seq }, bufferedInput)

/-- `InputBuffer.getInputsSince(sequence)`: entries with `sequence > given`. -/
def InputBuffer.getInputsSince (b : InputBuffer α) (sequence : Nat) : List (SequencedInput α) :=
  b.inputs.filter (fun i => decide (sequence < i.sequence))

/-- `InputBuffer.acknowledge(sequence)`: records the watermark and drops all
entries with `sequence ≤ given`. -/
def InputBuffer.acknowledge (b : InputBuffer α) (sequence : Nat) : InputBuffer α :=
  { b with
    lastAcknowledgedSequence := sequence,
    inputs := b.inputs.filter (fun i => decide (sequence < i.sequence)) }

/-- `InputBuffer.getUnacknowledgedInputs()`: entries above the acknowledged watermark. -/
def InputBuffer.getUnacknowledgedInputs (b : InputBuffer α) : List (SequencedInput α) :=
  b.inputs.filter (fun i => decide (b.lastAcknowledgedSequence < i.sequence))

/-- `clear()`: resets buffer and counters. -/
def InputBuffer.clear (b : InputBuffer α) : InputBuffer α :=
  { b with inputs := [], sequenceNumber := 0, lastAcknowledgedSequence := 0 }

/-- Apply `n` consecutive `addInput` calls (with a fixed dummy payload). -/
def InputBuffer.addMany (b : InputBuffer Unit) : Nat → InputBuffer Unit
  | 0 => b
  | n + 1 => ((b.addMany n).addInput () 0).1

/-! ### C7 scenario states -/

/-- The buffer after 61 consecutive `addInput` calls on a fresh buffer. -/
def buffer61 : InputBuffer Unit := (InputBuffer.new Unit).addMany 61

/-- `buffer61` after `acknowledge(50)`. -/
def buffer61ack50 : InputBuffer Unit := buffer61.acknowledge 50

/-- Claim C7 — For the InputBuffer with capacity 60: after 61 consecutive `addInput`
calls starting from a fresh buffer, the buffer holds exactly 60 entries whose
sequence numbers are exactly 2..61 in order (sequence numbers start at 1 and
increase by 1 per `addInput`, the oldest entry being evicted on overflow); and
after `acknowledge(50)`, exactly the entries with sequence > 50 remain, which
is also what `getUnacknowledgedInputs` returns. -/
theorem inputBuffer_capacity_and_ack :
    buffer61.inputs.length = 60 ∧
    buffer61.inputs.map (·.sequence) = List.range' 2 60 ∧
    buffer61ack50.inputs.map (·.sequence) = List.range' 51 11 ∧
    buffer61ack50.inputs = buffer61.inputs.filter (fun i => decide (50 < i.sequence)) ∧
    buffer61ack50.getUnacknowledgedInputs = buffer61ack50.inputs := by
  refine ⟨?_, ?_, ?_, ?_, ?_⟩ <;> decide

/-! ## server/gameState.js — GameState (race state machine) -/

/-- A 3-component vector (`{x, y, z}` object in the source). -/
structure Vec3 where
  x : ℚ
  y : ℚ
  z : ℚ
  deriving Repr, DecidableEq

/-- The zero vector `{x: 0, y: 0, z: 0}`. -/
def Vec3.zero : Vec3 := ⟨0, 0, 0⟩

/-- A tracked player entry of `GameState.players` (created by `initialize`). -/
structure RacePlayer where
  playerNumber : Nat
  position : Vec3
  rotation : Vec3
  velocity : Vec3
  currentLap : Nat
  checkpointsPassed : List Nat
  racePosition : Nat
  finished : Bool
  finishTime : Option Int
  deriving Repr, DecidableEq

/-- `GameState` fields.  `raceStartTime`/`raceEndTime` are `null` (`none`) until
set; `Date.now()` is an explicit argument to the mutating operations.  The
`powerUps` and `checkpoints` arrays are never read or written by any of the
modelled operations and are omitted. -/
structure GameState where
  players : List RacePlayer
  raceStartTime : Option Int
  raceEndTime : Option Int
  currentLap : Nat
  maxLaps : Nat
  tick : Nat
  lastUpdateTime : Int
  deriving Repr, DecidableEq

/-- `new GameState()` (the constructor; `lastUpdateTime = Date.now()` is the
construction time, passed explicitly). -/
def GameState.init (now : Int) : GameState :=
  { players := [], raceStartTime := none, raceEndTime := none,
    currentLap := 1, maxLaps := 3, tick := 0, lastUpdateTime := now }

/-- `GameState.initializeRace(playerCount, mapData)`: fresh per-player progress
records numbered 1..playerCount, race start stamped `now`. -/
def GameState.initializeRace (s : GameState) (playerCount : Nat) (now : Int) : GameState :=
  { s with
    players := (List.range playerCount).map (fun i =>
      { playerNumber := i + 1, position := Vec3.zero, rotation := Vec3.zero,
        velocity := Vec3.zero, currentLap := 1, checkpointsPassed := [],
        racePosition := i + 1, finished := false, finishTime := none }),
    raceStartTime := some now,
    tick := 0 }

/-- `GameState.isLapComplete(player)`: all 5 checkpoints of the lap passed. -/
def GameState.isLapComplete (p : RacePlayer) : Bool :=
  5 ≤ p.checkpointsPassed.length

/-- The sort relation of `updateRacePositions`: `raceLE a b` holds when the JS
comparator `(a, b) => a.currentLap !== b.currentLap ? b.currentLap - a.currentLap
: b.checkpointsPassed.length - a.checkpointsPassed.length` returns `≤ 0`,
i.e. `a` may come before `b` (laps descending, then checkpoint count
descending). -/
def raceLE (a b : RacePlayer) : Bool :=
  if a.currentLap ≠ b.currentLap then decide (b.currentLap < a.currentLap)
  else decide (b.checkpointsPassed.length ≤ a.checkpointsPassed.length)

/-- `GameState.updateRacePositions()`: stable-sorts a copy of the player array
by `(currentLap desc, checkpointsPassed.length desc)` (JS `Array.sort` is
stable, which `List.mergeSort` models) and writes `racePosition = sorted index
+ 1` back onto each player.  The JS code mutates shared object references; the
model recovers each player's sorted index through its `playerNumber`, which is
unique in every state built by `initialize`. -/
def GameState.updateRacePositions (s : GameState) : GameState :=
  let sorted := s.players.mergeSort raceLE
  { s with players := s.players.map (fun p =>
      { p with racePosition := sorted.findIdx (fun q => q.playerNumber == p.playerNumber) + 1 }) }

/-- JS truthiness of a possibly-`null` millisecond timestamp:
`!t` is `true` for `null` and for `0`. -/
def optIntFalsy : Option Int → Bool
  | none => true
  | some n => n == 0

/-- `GameState.checkRaceCompletion()`: stamps `raceEndTime` the first time every
tracked player is finished (vacuously true for an empty player list). -/
def GameState.checkRaceCompletion (s : GameState) (now : Int) : GameState :=
  if s.players.all (·.finished) && optIntFalsy s.raceEndTime then
    { s with raceEndTime := some now }
  else s

/-- `GameState.update(deltaTime)`: advances the tick, recomputes race positions,
then checks race completion. -/
def GameState.update (s : GameState) (now : Int) : GameState :=
  let s := { s with tick := s.tick + 1, lastUpdateTime := now }
  let s := s.updateRacePositions
  s.checkRaceCompletion now

/-- Update the first element satisfying `pred` (JS `Array.find` returns a
mutable reference to the first match). -/
def updateFirstWhere (pred : α → Bool) (f : α → α) : List α → List α
  | [] => []
  | x :: xs => if pred x then f x :: xs else x :: updateFirstWhere pred f xs

/-- The per-player body of `passCheckpoint`: record the checkpoint unless it is
already recorded for the current lap; on completing the 5-checkpoint set,
advance the lap and clear the set; past `maxLaps`, mark finished and stamp
`finishTime = Date.now() - raceStartTime` (JS `number - null` coerces `null`
to `0`, hence the `getD 0`). -/
def passCheckpointPlayer (maxLaps : Nat) (raceStartTime : Int) (now : Int)
    (checkpointId : Nat) (p : RacePlayer) : RacePlayer :=
  if p.checkpointsPassed.contains checkpointId then p
  else
    let p := { p with checkpointsPassed := p.checkpointsPassed ++ [checkpointId] }
    if GameState.isLapComplete p then
      let p := { p with currentLap := p.currentLap + 1, checkpointsPassed := [] }
      if maxLaps < p.currentLap then
        { p with finished := true, finishTime := some (now - raceStartTime) }
      else p
    else p

/-- `GameState.passCheckpoint(playerNumber, checkpointId)`. -/
def GameState.passCheckpoint (s : GameState) (playerNumber checkpointId : Nat)
    (now : Int) : GameState :=
  let f := passCheckpointPlayer s.maxLaps (s.raceStartTime.getD 0) now checkpointId
  { s with players := updateFirstWhere (fun p => p.playerNumber == playerNumber) f s.players }

/-- Deliver a sequence of `(checkpointId, now)` events to player 1. -/
def GameState.passSeq (s : GameState) : List (Nat × Int) → GameState
  | [] => s
  | (cp, now) :: rest => (s.passCheckpoint 1 cp now).passSeq rest

/-! ### C5 / C2 / C10 scenario states -/

/-- A one-player race started at time 1000. -/
def raceStart1 : GameState := (GameState.init 0).initializeRace 1 1000

/-- Lap 1 in progress: checkpoints 1, 2, 3 passed. -/
def raceMidLap1 : GameState := raceStart1.passSeq [(1, 1100), (2, 1200), (3, 1300)]

/-- Lap 1 completed: checkpoints 4 and 5 passed as well. -/
def raceLap2 : GameState := raceMidLap1.passSeq [(4, 1400), (5, 1500)]

/-- Laps 2 and 3 completed; the final checkpoint of lap 3 arrives at 4000 and
is then delivered a second time at 4444. -/
def raceFinished : GameState :=
  raceLap2.passSeq
    [(1, 2100), (2, 2200), (3, 2300), (4, 2400), (5, 2500),
     (1, 3100), (2, 3200), (3, 3300), (4, 3400), (5, 4000), (5, 4444)]

/-- A finished player receives five further distinct checkpoint events at 9999. -/
def raceOverrun : GameState :=
  raceFinished.passSeq [(1, 9999), (2, 9999), (3, 9999), (4, 9999), (5, 9999)]

/-- Claim C5 — With lap size 5 and maxLaps 3: a player on lap 1 who passes
checkpoints 1,2,3,4,5 advances to `currentLap` 2 with an empty
`checkpointsPassed` set; repeating a checkpoint already recorded in the current
lap is a no-op (here: the whole state is unchanged); completing the set on lap
3 marks the player finished with `finishTime = now − raceStartTime`, even if
the final checkpoint event is delivered twice. -/
theorem passCheckpoint_race_scenario :
    (raceMidLap1.players.map (·.checkpointsPassed) = [[1, 2, 3]]) ∧
    raceMidLap1.passCheckpoint 1 3 1350 = raceMidLap1 ∧
    (raceLap2.players.map (·.currentLap) = [2]) ∧
    (raceLap2.players.map (·.checkpointsPassed) = [[]]) ∧
    (raceFinished.players.map (·.finished) = [true]) ∧
    (raceFinished.players.map (·.finishTime) = [some (4000 - 1000)]) ∧
    ((raceLap2.passSeq
        [(1, 2100), (2, 2200), (3, 2300), (4, 2400), (5, 2500),
         (1, 3100), (2, 3200), (3, 3300), (4, 3400), (5, 4000)]).players.map (·.finishTime)
      = [some 3000]) := by
  refine ⟨?_, ?_, ?_, ?_, ?_, ?_, ?_⟩ <;> decide

/-- Claim C2 counterexample — The Finished state is not terminal for
`finishTime`: a player finished at elapsed time 3000 who is sent five further
distinct checkpoint events (a full lap's set) has `finishTime` reassigned to
8999, so `finishTime` is not set exactly once. -/
theorem finishTime_reassigned_after_finish :
    (raceFinished.players.map (fun p => (p.finished, p.finishTime)) = [(true, some 3000)]) ∧
    (raceOverrun.players.map (fun p => (p.finished, p.finishTime)) = [(true, some 8999)]) := by
  exact ⟨by decide, by decide⟩

/-- `updateFirstWhere` relates the old and new lists pointwise: every element
is either unchanged or the image under `f` of the old element. -/
theorem forall₂_updateFirstWhere {R : α → α → Prop} (pred : α → Bool) (f : α → α)
    (hrefl : ∀ x, R x x) (hf : ∀ x, R x (f x)) :
    ∀ l : List α, List.Forall₂ R l (updateFirstWhere pred f l)
  | [] => List.Forall₂.nil
  | x :: xs => by
    simp only [updateFirstWhere]
    split
    · exact List.Forall₂.cons (hf x) (List.forall₂_same.2 fun a _ => hrefl a)
    · exact List.Forall₂.cons (hrefl x) (forall₂_updateFirstWhere pred f hrefl hf xs)

/-- One `passCheckpoint` body application never clears `finished`, and either
leaves `finishTime` alone or (re)stamps it with `now − raceStartTime` while
`finished` is set. -/
theorem passCheckpointPlayer_terminal (maxLaps : Nat) (rst now : Int) (cp : Nat)
    (p : RacePlayer) :
    (p.finished = true → (passCheckpointPlayer maxLaps rst now cp p).finished = true) ∧
    ((passCheckpointPlayer maxLaps rst now cp p).finishTime = p.finishTime ∨
      ((passCheckpointPlayer maxLaps rst now cp p).finished = true ∧
        (passCheckpointPlayer maxLaps rst now cp p).finishTime = some (now - rst))) := by
  unfold passCheckpointPlayer
  dsimp only
  split_ifs
  · exact ⟨id, Or.inl rfl⟩
  · exact ⟨fun _ => rfl, Or.inr ⟨rfl, rfl⟩⟩
  · exact ⟨fun h => h, Or.inl rfl⟩
  · exact ⟨fun h => h, Or.inl rfl⟩

/-- Claim C2 amended — Under any `passCheckpoint` event, each player's
`finished` flag is terminal (once `true`, it never reverts), and `finishTime`
either keeps its previous value or is assigned `now − raceStartTime` with
`finished` set.  (As stated, the claim is false: `finishTime` is *not* set
exactly once — a finished player who is delivered a further full set of five
distinct checkpoints has `finishTime` reassigned, see the counterexample.) -/
theorem passCheckpoint_finished_terminal (s : GameState) (pn cp : Nat) (now : Int) :
    List.Forall₂ (fun p p' =>
        (p.finished = true → p'.finished = true) ∧
        (p'.finishTime = p.finishTime ∨
          (p'.finished = true ∧ p'.finishTime = some (now - s.raceStartTime.getD 0))))
      s.players (s.passCheckpoint pn cp now).players := by
  unfold GameState.passCheckpoint
  exact forall₂_updateFirstWhere _ _ (fun x => ⟨id, Or.inl rfl⟩)
    (fun x => passCheckpointPlayer_terminal s.maxLaps (s.raceStartTime.getD 0) now cp x)
    s.players

/-- Witness for the amended C2 theorem at a concrete reachable state. -/
theorem passCheckpoint_finished_terminal_witness :
    List.Forall₂ (fun p p' =>
        (p.finished = true → p'.finished = true) ∧
        (p'.finishTime = p.finishTime ∨
          (p'.finished = true ∧
            p'.finishTime = some (1234 - raceStart1.raceStartTime.getD 0))))
      raceStart1.players (raceStart1.passCheckpoint 1 1 1234).players :=
  passCheckpoint_finished_terminal raceStart1 1 1 1234

/-- Claim C10 — The `GameState` constructed with every new `Room` has an empty
player list, so "all players finished" is vacuously true and the very first
`update()` call stamps `raceEndTime`: a race with zero players is immediately
marked complete. -/
theorem empty_race_immediately_complete (constructedAt now : Int) :
    (GameState.init constructedAt).players = [] ∧
    (GameState.init constructedAt).raceEndTime = none ∧
    ((GameState.init constructedAt).update now).raceEndTime = some now := by
  refine ⟨rfl, rfl, ?_⟩
  simp [GameState.init, GameState.update, GameState.updateRacePositions,
    GameState.checkRaceCompletion, optIntFalsy]

/-! ### C6 — race positions -/

/-- Player `a` is strictly ahead of `b`: more laps, or same lap and more
checkpoints passed. -/
def leadsStrictly (a b : RacePlayer) : Prop :=
  b.currentLap < a.currentLap ∨
    (a.currentLap = b.currentLap ∧ b.checkpointsPassed.length < a.checkpointsPassed.length)

/-- Players `a` and `b` are tied under the position sort key. -/
def tiedWith (a b : RacePlayer) : Prop :=
  a.currentLap = b.currentLap ∧ a.checkpointsPassed.length = b.checkpointsPassed.length

instance (a b : RacePlayer) : Decidable (leadsStrictly a b) := by
  unfold leadsStrictly; exact inferInstance

instance (a b : RacePlayer) : Decidable (tiedWith a b) := by
  unfold tiedWith; exact inferInstance

/-- The C6 property of a player list: `racePosition` values are a permutation
of 1..N, strict leaders rank strictly better, and ties keep the prior array
order. -/
def racePositionsCorrect (l : List RacePlayer) : Prop :=
  (l.map (·.racePosition)).Perm (List.range' 1 l.length) ∧
  (∀ p ∈ l, ∀ q ∈ l, leadsStrictly p q → p.racePosition < q.racePosition) ∧
  (∀ i j (hi : i < l.length) (hj : j < l.length), i < j →
    tiedWith (l.get ⟨i, hi⟩) (l.get ⟨j, hj⟩) →
    (l.get ⟨i, hi⟩).racePosition < (l.get ⟨j, hj⟩).racePosition)

/-- A two-player race where player 2 passes a checkpoint after the last
position recomputation. -/
def c6State : GameState :=
  (((GameState.init 0).initializeRace 2 0).update 50).passCheckpoint 2 1 100

/-- The value of `((GameState.init 0).initializeRace 2 0).update 50`, written out.
(`mergeSort` uses well-founded recursion, so concrete states that pass through
`updateRacePositions` are evaluated by lemma rather than by `decide`.) -/
def c6Base : GameState :=
  { players :=
      [{ playerNumber := 1, position := Vec3.zero, rotation := Vec3.zero,
         velocity := Vec3.zero, currentLap := 1, checkpointsPassed := [],
         racePosition := 1, finished := false, finishTime := none },
       { playerNumber := 2, position := Vec3.zero, rotation := Vec3.zero,
         velocity := Vec3.zero, currentLap := 1, checkpointsPassed := [],
         racePosition := 2, finished := false, finishTime := none }],
    raceStartTime := some 0, raceEndTime := none, currentLap := 1, maxLaps := 3,
    tick := 1, lastUpdateTime := 50 }

/-- Evaluation of the two-player `update` tick. -/
theorem c6_update_eval : ((GameState.init 0).initializeRace 2 0).update 50 = c6Base := by
  unfold GameState.update GameState.updateRacePositions GameState.checkRaceCompletion
  dsimp only
  rw [List.mergeSort_of_sorted (by decide)]
  decide

/-- Claim C6 counterexample — `passCheckpoint` is a mutating race event, but it
does not recompute `racePosition`: in `c6State`, player 2 has strictly more
checkpoints than player 1 on the same lap yet still holds position 2, so the
position list is stale, not ordered by `(lap desc, checkpoints desc)`. -/
theorem racePositions_stale_after_passCheckpoint :
    (c6State.players.map
        (fun p => (p.playerNumber, p.currentLap, p.checkpointsPassed.length, p.racePosition))
      = [(1, 1, 0, 1), (2, 1, 1, 2)]) ∧
    ¬ racePositionsCorrect c6State.players := by
  have hc : c6State = c6Base.passCheckpoint 2 1 100 := by
    unfold c6State
    rw [c6_update_eval]
  rw [hc]
  refine ⟨by decide, fun h => ?_⟩
  have h2 := h.2.1
  revert h2
  decide

/-- `raceLE` is transitive. -/
theorem raceLE_trans (a b c : RacePlayer) (h1 : raceLE a b) (h2 : raceLE b c) :
    raceLE a c := by
  simp only [raceLE] at *
  split_ifs at * <;> simp_all <;> omega

/-- `raceLE` is total. -/
theorem raceLE_total (a b : RacePlayer) : raceLE a b || raceLE b a := by
  simp only [raceLE]
  split_ifs <;> simp_all <;> omega

/-- If `p` strictly leads `q` then the comparator never lets `q` sort before
or level with `p`. -/
theorem raceLE_false_of_leadsStrictly {p q : RacePlayer} (h : leadsStrictly p q) :
    raceLE q p = false := by
  rcases h with h | ⟨h1, h2⟩
  · simp only [raceLE]
    split_ifs with hne <;> simp_all <;> omega
  · simp only [raceLE]
    split_ifs with hne <;> simp_all

/-- Tied players satisfy the comparator in array order. -/
theorem raceLE_of_tied {p q : RacePlayer} (h : tiedWith p q) : raceLE p q := by
  obtain ⟨h1, h2⟩ := h
  simp [raceLE, h1, h2]

/-- `findIdx` only depends on the predicate's values on the list. -/
theorem findIdx_agree : ∀ (l : List α) (p q : α → Bool),
    (∀ x ∈ l, p x = q x) → l.findIdx p = l.findIdx q
  | [], _, _, _ => rfl
  | x :: xs, p, q, h => by
    have hx := h x (List.mem_cons_self x xs)
    rw [List.findIdx_cons, List.findIdx_cons, hx,
      findIdx_agree xs p q (fun y hy => h y (List.mem_cons_of_mem x hy))]

/-- In a list with no duplicate player numbers, looking up a member's player
number finds exactly that member's index. -/
theorem findIdx_key_eq_indexOf {l : List RacePlayer}
    (hk : (l.map (·.playerNumber)).Nodup) {p : RacePlayer} (hp : p ∈ l) :
    l.findIdx (fun q => q.playerNumber == p.playerNumber) = l.indexOf p := by
  apply findIdx_agree
  intro x hx
  by_cases hxp : x = p
  · simp [hxp]
  · have hne : x.playerNumber ≠ p.playerNumber :=
      fun he => hxp (List.inj_on_of_nodup_map hk hx hp he)
    simp [hxp, hne]

/-- In a duplicate-free list, a two-element sublist appears in index order. -/
theorem indexOf_lt_of_pair_sublist [DecidableEq α] :
    ∀ {t : List α}, t.Nodup → ∀ {a b : α}, [a, b] <+ t → t.indexOf a < t.indexOf b
  | [], _, a, b, h => by cases h
  | x :: t', hnd, a, b, h => by
    obtain ⟨hx, hnd'⟩ := List.nodup_cons.mp hnd
    cases h with
    | cons _ h' =>
      have ha : a ∈ t' := h'.subset (by simp)
      have hb : b ∈ t' := h'.subset (by simp)
      have hax : a ≠ x := fun he => hx (he ▸ ha)
      have hbx : b ≠ x := fun he => hx (he ▸ hb)
      rw [List.indexOf_cons_ne _ hax.symm, List.indexOf_cons_ne _ hbx.symm]
      exact Nat.succ_lt_succ (indexOf_lt_of_pair_sublist hnd' h')
    | cons₂ _ h' =>
      have hb : b ∈ t' := h'.subset (by simp)
      have hbx : b ≠ x := fun he => hx (he ▸ hb)
      rw [List.indexOf_cons_self, List.indexOf_cons_ne _ hbx.symm]
      exact Nat.succ_pos _

/-- Claim C6 amended — After `updateRacePositions` (invoked by `update()` on
every tick), the `racePosition` values of the N tracked players are a strict
permutation of 1..N, ordered first by `currentLap` descending and then by
`checkpointsPassed` count descending, with ties resolved by prior array
position.  (As stated, the claim is false: `passCheckpoint` itself does not
recompute positions, see the counterexample.) -/
theorem updateRacePositions_correct (s : GameState)
    (hkeys : (s.players.map (·.playerNumber)).Nodup) :
    racePositionsCorrect s.updateRacePositions.players := by
  classical
  simp only [GameState.updateRacePositions, racePositionsCorrect]
  set l := s.players with hl
  set srt := l.mergeSort raceLE with hsrt
  have hperm : srt ~ l := List.mergeSort_perm l raceLE
  have hpairwise : srt.Pairwise (raceLE · ·) := List.sorted_mergeSort raceLE_trans raceLE_total l
  have hkeys_srt : (srt.map (·.playerNumber)).Nodup := ((hperm.map _).nodup_iff).mpr hkeys
  have hnd_srt : srt.Nodup := hkeys_srt.of_map _
  have hnd_l : l.Nodup := hkeys.of_map _
  have hidx : ∀ p ∈ l,
      srt.findIdx (fun q => q.playerNumber == p.playerNumber) = srt.indexOf p :=
    fun p hp => findIdx_key_eq_indexOf hkeys_srt (hperm.mem_iff.mpr hp)
  refine ⟨?_, ?_, ?_⟩
  · -- racePosition values are a permutation of 1..N
    rw [List.map_map, List.length_map]
    have hmap : l.map (fun p =>
        srt.findIdx (fun q => q.playerNumber == p.playerNumber) + 1)
        = l.map (fun p => srt.indexOf p + 1) :=
      List.map_congr_left (fun p hp => by rw [hidx p hp])
    have hsrtmap : srt.map (fun p => srt.indexOf p) = List.range srt.length := by
      apply List.ext_get (by simp)
      intro i h1 h2
      rw [List.get_map, List.get_indexOf hnd_srt, List.get_range]
    have h3 : l.map (fun p => srt.indexOf p) ~ List.range l.length := by
      have h4 := (hperm.map (fun p => srt.indexOf p)).symm
      rw [hsrtmap, hperm.length_eq] at h4
      exact h4
    have h5 : l.map (fun p => srt.indexOf p + 1)
        = (l.map (fun p => srt.indexOf p)).map (· + 1) := by
      rw [List.map_map]
      rfl
    have h6 : (List.range l.length).map (· + 1) = List.range' 1 l.length := by
      rw [List.range'_eq_map_range]
      exact List.map_congr_left (fun a _ => Nat.add_comm a 1)
    calc l.map (fun p => srt.findIdx (fun q => q.playerNumber == p.playerNumber) + 1)
        = (l.map (fun p => srt.indexOf p)).map (· + 1) := by rw [hmap, h5]
      _ ~ (List.range l.length).map (· + 1) := h3.map _
      _ = List.range' 1 l.length := h6
  · -- strict leaders rank strictly better
    intro x hx y hy hxy
    obtain ⟨p, hp, rfl⟩ := List.mem_map.mp hx
    obtain ⟨q, hq, rfl⟩ := List.mem_map.mp hy
    have hlead : leadsStrictly p q := hxy
    have hpsrt : p ∈ srt := hperm.mem_iff.mpr hp
    have hqsrt : q ∈ srt := hperm.mem_iff.mpr hq
    have hplt : srt.indexOf p < srt.length := List.indexOf_lt_length.mpr hpsrt
    have hqlt : srt.indexOf q < srt.length := List.indexOf_lt_length.mpr hqsrt
    have hpq : p ≠ q := by
      intro he
      subst he
      rcases hlead with h | ⟨_, h⟩ <;> omega
    show srt.findIdx (fun r => r.playerNumber == p.playerNumber) + 1
        < srt.findIdx (fun r => r.playerNumber == q.playerNumber) + 1
    rw [hidx p hp, hidx q hq]
    by_contra hcon
    have hne : srt.indexOf q ≠ srt.indexOf p := by
      intro he
      apply hpq
      have h1 := List.indexOf_get hplt
      have h2 := List.indexOf_get hqlt
      rw [← h1, ← h2]
      congr 1
      exact Fin.ext he.symm
    have hqp : srt.indexOf q < srt.indexOf p := by omega
    have hle : raceLE (srt.get ⟨srt.indexOf q, hqlt⟩) (srt.get ⟨srt.indexOf p, hplt⟩) :=
      List.pairwise_iff_get.mp hpairwise ⟨srt.indexOf q, hqlt⟩ ⟨srt.indexOf p, hplt⟩ hqp
    rw [List.indexOf_get hplt, List.indexOf_get hqlt] at hle
    rw [raceLE_false_of_leadsStrictly hlead] at hle
    exact Bool.false_ne_true hle
  · -- ties keep prior array order
    intro i j hi hj hij htied
    rw [List.length_map] at hi hj
    simp only [List.get_map] at htied ⊢
    have htied' : tiedWith (l.get ⟨i, hi⟩) (l.get ⟨j, hj⟩) := htied
    have ha : l.get ⟨i, hi⟩ ∈ l := l.get_mem i hi
    have hb : l.get ⟨j, hj⟩ ∈ l := l.get_mem j hj
    have hasrt : l.get ⟨i, hi⟩ ∈ srt := hperm.mem_iff.mpr ha
    have hbsrt : l.get ⟨j, hj⟩ ∈ srt := hperm.mem_iff.mpr hb
    have hsubl : [l.get ⟨i, hi⟩, l.get ⟨j, hj⟩] <+ l := by
      have hpw : ([⟨i, hi⟩, ⟨j, hj⟩] : List (Fin l.length)).Pairwise (·.val < ·.val) := by
        simp [hij]
      simpa using List.map_get_sublist hpw
    have hpw2 : ([l.get ⟨i, hi⟩, l.get ⟨j, hj⟩] : List RacePlayer).Pairwise (raceLE · ·) := by
      refine List.pairwise_cons.mpr ⟨fun y hy => ?_, List.pairwise_singleton _ _⟩
      have hy' := List.mem_singleton.mp hy
      subst hy'
      exact raceLE_of_tied htied'
    have hsub2 : [l.get ⟨i, hi⟩, l.get ⟨j, hj⟩] <+ srt :=
      List.sublist_mergeSort raceLE_trans raceLE_total hpw2 hsubl
    have hlt : srt.indexOf (l.get ⟨i, hi⟩) < srt.indexOf (l.get ⟨j, hj⟩) :=
      indexOf_lt_of_pair_sublist hnd_srt hsub2
    show srt.findIdx (fun r => r.playerNumber == (l.get ⟨i, hi⟩).playerNumber) + 1
        < srt.findIdx (fun r => r.playerNumber == (l.get ⟨j, hj⟩).playerNumber) + 1
    rw [hidx _ ha, hidx _ hb]
    omega

/-- Witness for the amended C6 theorem: a freshly initialized three-player
race has duplicate-free player numbers, and its recomputed positions satisfy
the property. -/
theorem updateRacePositions_correct_witness :
    ((((GameState.init 0).initializeRace 3 0).players.map (·.playerNumber)).Nodup) ∧
    racePositionsCorrect ((GameState.init 0).initializeRace 3 0).updateRacePositions.players :=
  ⟨by decide, updateRacePositions_correct _ (by decide)⟩

/-! ## server/roomManager.js — Player, Room, RoomManager -/

/-- A room member.  The live-state fields of the source `Player` class
(`selectedCar`, `carSelected`, `input`, `position`, `rotation`, `velocity`,
`ready`, `connectedAt`) are never read by any of the modelled operations and
are omitted. -/
structure Player where
  socketId : String
  playerName : String
  playerNumber : Nat
  isHost : Bool
  deriving Repr, DecidableEq

/-- A game room.  The random internal `id` string is unused by the modelled
operations and omitted; `Date.now()` is the explicit `createdAt`. -/
structure Room where
  roomCode : String
  hostSocketId : String
  players : List Player
  selectedMap : Option String
  gameMode : String
  gameStarted : Bool
  gameState : GameState
  createdAt : Int
  deriving Repr, DecidableEq

/-- `new Room(roomCode, hostSocketId)`. -/
def Room.create (roomCode hostSocketId : String) (now : Int) : Room :=
  { roomCode := roomCode, hostSocketId := hostSocketId, players := [],
    selectedMap := none, gameMode := "race", gameStarted := false,
    gameState := GameState.init now, createdAt := now }

/-- `Room.addPlayer(socketId, playerName)`: idempotent on a present
`socketId`; otherwise appends with `playerNumber = count + 1` and
`isHost = (playerNumber === 1)`. -/
def Room.addPlayer (r : Room) (socketId playerName : String) : Room × Player :=
  match r.players.find? (fun p => p.socketId == socketId) with
  | some existingPlayer => (r, existingPlayer)
  | none =>
    let playerNumber := r.players.length + 1
    let isHost := playerNumber == 1
    let player : Player :=
      { socketId := socketId, playerName := playerName,
        playerNumber := playerNumber, isHost := isHost }
    ({ r with players := r.players ++ [player] }, player)

/-- The renumbering `forEach` of `Room.removePlayer`: player at index `idx`
gets `playerNumber = idx + 1` and `isHost = (idx === 0)`. -/
def renumber (i : Nat) : List Player → List Player
  | [] => []
  | p :: ps => { p with playerNumber := i + 1, isHost := i == 0 } :: renumber (i + 1) ps

/-- `Room.removePlayer(socketId)`: splices out the first player with that
`socketId` (if any) and renumbers the remaining players densely. -/
def Room.removePlayer (r : Room) (socketId : String) : Room × Option Player :=
  match r.players.findIdx? (fun p => p.socketId == socketId) with
  | none => (r, none)
  | some index =>
    ({ r with players := renumber 0 (r.players.eraseIdx index) }, r.players.get? index)

/-- `Room.hasPlayer(socketId)`. -/
def Room.hasPlayer (r : Room) (socketId : String) : Bool :=
  r.players.any (fun p => p.socketId == socketId)

/-- `Room.getPlayerBySocketId(socketId)`. -/
def Room.getPlayerBySocketId (r : Room) (socketId : String) : Option Player :=
  r.players.find? (fun p => p.socketId == socketId)

/-! ### C1 — dense player numbering with a unique host -/

/-- A membership event on a room. -/
inductive RoomOp where
  | add (socketId playerName : String)
  | remove (socketId : String)

/-- Apply one membership event. -/
def Room.applyOp (r : Room) : RoomOp → Room
  | .add socketId playerName => (r.addPlayer socketId playerName).1
  | .remove socketId => (r.removePlayer socketId).1

/-- Apply a sequence of membership events, oldest first. -/
def Room.applyOps (r : Room) : List RoomOp → Room
  | [] => r
  | op :: ops => (r.applyOp op).applyOps ops

/-- The C1 invariant: `playerNumber` values are exactly `1..N` in list order
and `isHost` agrees with `playerNumber == 1` everywhere. -/
def playersWellNumbered (ps : List Player) : Prop :=
  ps.map (·.playerNumber) = List.range' 1 ps.length ∧
  ∀ p ∈ ps, p.isHost = (p.playerNumber == 1)

theorem renumber_map_number : ∀ (i : Nat) (ps : List Player),
    (renumber i ps).map (·.playerNumber) = List.range' (i + 1) ps.length
  | _, [] => rfl
  | i, p :: ps => by
    show (i + 1) :: (renumber (i + 1) ps).map (·.playerNumber)
        = List.range' (i + 1) (ps.length + 1)
    rw [List.range'_succ, renumber_map_number (i + 1) ps]

theorem renumber_isHost : ∀ (i : Nat) (ps : List Player),
    ∀ p ∈ renumber i ps, p.isHost = (p.playerNumber == 1)
  | i, p :: ps, q, hq => by
    rcases List.mem_cons.mp hq with h | h
    · subst h
      show (i == 0) = (i + 1 == 1)
      cases i with
      | zero => rfl
      | succ n => rfl
    · exact renumber_isHost (i + 1) ps q h
  | _, [], q, hq => by cases hq

theorem renumber_length : ∀ (i : Nat) (ps : List Player),
    (renumber i ps).length = ps.length
  | _, [] => rfl
  | i, p :: ps => by simp [renumber, renumber_length (i + 1) ps]

/-- `addPlayer` preserves the C1 invariant. -/
theorem addPlayer_wellNumbered (r : Room) (sid name : String)
    (h : playersWellNumbered r.players) :
    playersWellNumbered ((r.addPlayer sid name).1).players := by
  unfold Room.addPlayer
  cases hfind : r.players.find? (fun p => p.socketId == sid) with
  | some p => exact h
  | none =>
    obtain ⟨h1, h2⟩ := h
    constructor
    · simp only [List.map_append, List.length_append, List.map_cons, List.map_nil,
        List.length_cons, List.length_nil, h1, Nat.zero_add]
      rw [List.range'_1_concat]
      simp [Nat.add_comm]
    · intro p hp
      rcases List.mem_append.mp hp with hmem | hmem
      · exact h2 p hmem
      · rcases List.mem_singleton.mp hmem with rfl
        rfl

/-- `removePlayer` preserves the C1 invariant. -/
theorem removePlayer_wellNumbered (r : Room) (sid : String)
    (h : playersWellNumbered r.players) :
    playersWellNumbered ((r.removePlayer sid).1).players := by
  unfold Room.removePlayer
  cases hfind : r.players.findIdx? (fun p => p.socketId == sid) with
  | none => exact h
  | some i =>
    exact ⟨by rw [renumber_map_number, renumber_length], renumber_isHost 0 _⟩

/-- The invariant is preserved by any event sequence. -/
theorem applyOps_wellNumbered : ∀ (ops : List RoomOp) (r : Room),
    playersWellNumbered r.players → playersWellNumbered (r.applyOps ops).players
  | [], _, h => h
  | op :: ops, r, h => by
    apply applyOps_wellNumbered ops
    cases op with
    | add sid name => exact addPlayer_wellNumbered r sid name h
    | remove sid => exact removePlayer_wellNumbered r sid h

/-- The invariant yields the C1 host property. -/
theorem wellNumbered_unique_host {ps : List Player} (h : playersWellNumbered ps) :
    (ps.filter (·.isHost)).length = min ps.length 1 ∧
    ∀ p ∈ ps, p.isHost = true → p.playerNumber = 1 := by
  obtain ⟨h1, h2⟩ := h
  refine ⟨?_, fun p hp hhost => by
    have h3 := h2 p hp
    rw [hhost] at h3
    exact eq_of_beq h3.symm⟩
  have hfe : ps.filter (·.isHost) = ps.filter (fun p => p.playerNumber == 1) :=
    List.filter_congr (fun p hp => h2 p hp)
  have hcm : List.countP (fun p => p.playerNumber == 1) ps
      = List.countP (fun n => n == 1) (ps.map (·.playerNumber)) := by
    rw [List.countP_map]
    rfl
  rw [hfe, ← List.countP_eq_length_filter, hcm, h1]
  cases hn : ps.length with
  | zero => rfl
  | succ n =>
    have h0 : List.countP (fun m => m == 1) (List.range' 2 n) = 0 := by
      rw [List.countP_eq_zero]
      intro a ha
      have h4 := (List.mem_range'_1.mp ha).1
      simp only [beq_iff_eq]
      omega
    rw [List.range'_succ, List.countP_cons, h0]
    simp [Nat.min_def]

/-- Claim C1 — For every sequence of `addPlayer`/`removePlayer` calls on a room,
the player list's `playerNumber` values are exactly `1..N` in list order, and
exactly one player has `isHost == true` (the player numbered 1) whenever
`N > 0`. -/
theorem room_players_dense_unique_host (code host : String) (now : Int)
    (ops : List RoomOp) :
    ((Room.create code host now).applyOps ops).players.map (·.playerNumber)
      = List.range' 1 ((Room.create code host now).applyOps ops).players.length ∧
    (((Room.create code host now).applyOps ops).players.filter (·.isHost)).length
      = min ((Room.create code host now).applyOps ops).players.length 1 ∧
    ∀ p ∈ ((Room.create code host now).applyOps ops).players,
      p.isHost = true → p.playerNumber = 1 := by
  have hinv : playersWellNumbered ((Room.create code host now).applyOps ops).players :=
    applyOps_wellNumbered ops _ ⟨rfl, fun p hp => by cases hp⟩
  exact ⟨hinv.1, wellNumbered_unique_host hinv⟩

/-- Witness for C1 on a concrete event sequence: two joins, the host leaves,
a third player joins. -/
theorem room_players_dense_unique_host_witness :
    (((Room.create "482913" "desktop" 0).applyOps
        [.add "a" "Alice", .add "b" "Bob", .remove "a", .add "c" "Carol"]).players.map
      (fun p => (p.socketId, p.playerNumber, p.isHost))
      = [("b", 1, true), ("c", 2, false)]) ∧
    (((Room.create "482913" "desktop" 0).applyOps
        [.add "a" "Alice", .add "b" "Bob", .remove "a", .add "c" "Carol"]).players.map
      (·.playerNumber)
      = List.range' 1 (((Room.create "482913" "desktop" 0).applyOps
          [.add "a" "Alice", .add "b" "Bob", .remove "a", .add "c" "Carol"]).players.length)) := by
  refine ⟨by decide, ?_⟩
  exact (room_players_dense_unique_host "482913" "desktop" 0
    [.add "a" "Alice", .add "b" "Bob", .remove "a", .add "c" "Carol"]).1

/-! ## RoomManager registry, room-code generation, disconnect handling -/

/-- The room registry: `this.rooms` is a JS `Map` of `roomCode -> Room`, an
insertion-ordered association list with unique keys. -/
structure RoomManager where
  rooms : List (String × Room)
  deriving Repr, DecidableEq

/-- `RoomManager.getRoom(roomCode)` (`Map.get`). -/
def RoomManager.getRoom (m : RoomManager) (roomCode : String) : Option Room :=
  (m.rooms.find? (fun e => e.1 == roomCode)).map (·.2)

/-- `this.rooms.has(code)` (`Map.has`). -/
def RoomManager.hasCode (m : RoomManager) (code : String) : Bool :=
  m.rooms.any (fun e => e.1 == code)

/-- `RoomManager.deleteRoom(roomCode)` (`Map.delete`; keys are unique, so
removing every binding of the key is the single-entry delete).  Returns the
new registry and whether an entry was deleted. -/
def RoomManager.deleteRoom (m : RoomManager) (roomCode : String) : RoomManager × Bool :=
  (⟨m.rooms.filter (fun e => !(e.1 == roomCode))⟩, m.hasCode roomCode)

/-- `RoomManager.findRoomBySocketId(socketId)`: first room (in insertion
order) whose host or member list contains the socket. -/
def RoomManager.findRoomBySocketId (m : RoomManager) (socketId : String) : Option Room :=
  (m.rooms.find? (fun e => e.2.hostSocketId == socketId || e.2.hasPlayer socketId)).map (·.2)

/-- Replace the stored room under `roomCode` (in JS the `Room` object in the
`Map` is mutated in place; the model writes the updated room back). -/
def RoomManager.updateRoom (m : RoomManager) (roomCode : String) (r : Room) : RoomManager :=
  ⟨m.rooms.map (fun e => if e.1 == roomCode then (e.1, r) else e)⟩

/-! ### C4 — room-code generation -/

/-- One candidate draw: `Math.floor(100000 + Math.random() * 900000).toString()`,
with the `i`-th value of the random stream modelled as `draws i % 900000`. -/
def roomCodeCandidate (draws : Nat → Nat) (i : Nat) : String :=
  toString (100000 + draws i % 900000)

/-- The retry loop of `generateRoomCode`: up to `fuel` membership-checked
candidates; once the attempt counter would exceed `maxAttempts`, throws
`'Failed to generate unique room code'`. -/
def generateRoomCodeAux (draws : Nat → Nat) (taken : String → Bool) :
    Nat → Nat → Except String String
  | _, 0 => .error "Failed to generate unique room code"
  | i, fuel + 1 =>
    let code := roomCodeCandidate draws i
    if taken code then generateRoomCodeAux draws taken (i + 1) fuel
    else .ok code

/-- `RoomManager.generateRoomCode()` with `maxAttempts = 100`. -/
def RoomManager.generateRoomCode (m : RoomManager) (draws : Nat → Nat) :
    Except String String :=
  generateRoomCodeAux draws m.hasCode 0 100

theorem generateRoomCodeAux_ok {draws : Nat → Nat} {taken : String → Bool} :
    ∀ {fuel i : Nat} {code : String},
    generateRoomCodeAux draws taken i fuel = .ok code →
    taken code = false ∧ ∃ n, code = toString n ∧ 100000 ≤ n ∧ n ≤ 999999 := by
  intro fuel
  induction fuel with
  | zero => intro i code h; cases h
  | succ fuel ih =>
    intro i code h
    unfold generateRoomCodeAux at h
    dsimp only at h
    by_cases ht : taken (roomCodeCandidate draws i) = true
    · rw [if_pos ht] at h
      exact ih h
    · rw [if_neg ht] at h
      cases h
      refine ⟨Bool.eq_false_iff.mpr ht, 100000 + draws i % 900000, rfl, ?_, ?_⟩
      · omega
      · have h9 : draws i % 900000 < 900000 := Nat.mod_lt _ (by omega)
        omega

/-- Claim C4 — Room-code generation never returns a code that is already a key
of the live-room table: when it succeeds, the returned code is a 6-digit code
(decimal numeral between 100000 and 999999) absent from the registry; and when
every candidate within the 100-attempt cap is taken, it fails with the defined
error `'Failed to generate unique room code'` rather than looping forever or
returning a colliding code. -/
theorem generateRoomCode_fresh_or_exhausted (m : RoomManager) (draws : Nat → Nat) :
    (∀ code, m.generateRoomCode draws = .ok code →
      m.hasCode code = false ∧ ∃ n, code = toString n ∧ 100000 ≤ n ∧ n ≤ 999999) ∧
    ((∀ i, i < 100 → m.hasCode (roomCodeCandidate draws i) = true) →
      m.generateRoomCode draws = .error "Failed to generate unique room code") := by
  constructor
  · intro code h
    exact generateRoomCodeAux_ok h
  · intro hall
    unfold RoomManager.generateRoomCode
    have haux : ∀ (fuel i : Nat), (∀ k, k < fuel → m.hasCode (roomCodeCandidate draws (i + k)) = true) →
        generateRoomCodeAux draws m.hasCode i fuel
          = .error "Failed to generate unique room code" := by
      intro fuel
      induction fuel with
      | zero => intro i _; rfl
      | succ fuel ih =>
        intro i hk
        unfold generateRoomCodeAux
        dsimp only
        rw [if_pos (by simpa using hk 0 (Nat.succ_pos fuel))]
        exact ih (i + 1) (fun k hkf => by
          have := hk (k + 1) (by omega)
          rwa [show i + (k + 1) = i + 1 + k from by omega] at this)
    exact haux 100 0 (fun k hkf => by simpa using hall k hkf)

/-- Witness for C4: on an empty registry the first draw is returned and is
fresh; on a registry owning every candidate of the constant stream, the
generator reports exhaustion. -/
theorem generateRoomCode_fresh_or_exhausted_witness :
    ((RoomManager.mk []).generateRoomCode (fun _ => 0) = .ok "100000" ∧
      (RoomManager.mk []).hasCode "100000" = false) ∧
    (RoomManager.mk [("100000", Room.create "100000" "h" 0)]).generateRoomCode (fun _ => 0)
      = .error "Failed to generate unique room code" := by
  refine ⟨⟨rfl, ?_⟩, ?_⟩
  · exact ((generateRoomCode_fresh_or_exhausted (RoomManager.mk []) (fun _ => 0)).1
      "100000" rfl).1
  · exact (generateRoomCode_fresh_or_exhausted
      (RoomManager.mk [("100000", Room.create "100000" "h" 0)]) (fun _ => 0)).2
      (fun i _ => by
        have h0 : roomCodeCandidate (fun _ => 0) i = roomCodeCandidate (fun _ => 0) 0 := rfl
        rw [h0, show roomCodeCandidate (fun _ => 0) 0 = "100000" from by decide]
        decide)

/-! ### C3 — server.js disconnect handler -/

/-- Events emitted to the room's members by the disconnect handler. -/
inductive ServerEvent where
  | roomClosed (roomCode reason : String)
  | playerLeft (roomCode : String) (playerNumber totalPlayers : Nat) (players : List Player)
  deriving Repr, DecidableEq

/-- The `socket.on('disconnect')` handler: look the room up by the socket; a
host socket closes the room (`roomClosed` + `deleteRoom`), a member socket is
removed (`removePlayer` + `playerLeft`), and an unknown socket does nothing.
(In JS the `Room` inside the `Map` is mutated in place; the model writes the
mutated room back with `updateRoom`.)  Returns the new registry and the
emitted events. -/
def handleDisconnect (m : RoomManager) (socketId : String) :
    RoomManager × List ServerEvent :=
  match m.findRoomBySocketId socketId with
  | none => (m, [])
  | some room =>
    if room.hostSocketId == socketId then
      ((m.deleteRoom room.roomCode).1,
        [.roomClosed room.roomCode "Host disconnected"])
    else
      let res := room.removePlayer socketId
      match res.2 with
      | some player =>
        (m.updateRoom room.roomCode res.1,
          [.playerLeft room.roomCode player.playerNumber res.1.players.length res.1.players])
      | none => (m, [])

theorem getRoom_deleteRoom (m : RoomManager) (code : String) :
    ((m.deleteRoom code).1).getRoom code = none := by
  unfold RoomManager.deleteRoom RoomManager.getRoom
  rw [show (List.find? (fun e => e.1 == code)
      (m.rooms.filter (fun e => !(e.1 == code)))) = none from ?_]
  · rfl
  · rw [List.find?_eq_none]
    intro e he hcode
    have := (List.mem_filter.mp he).2
    rw [hcode] at this
    cases this

theorem getRoom_updateRoom (m : RoomManager) (code : String) (r : Room)
    (h : m.hasCode code = true) :
    (m.updateRoom code r).getRoom code = some r := by
  obtain ⟨rooms⟩ := m
  unfold RoomManager.updateRoom RoomManager.getRoom
  unfold RoomManager.hasCode at h
  induction rooms with
  | nil => cases h
  | cons e es ih =>
    cases hb : (e.1 == code) with
    | true =>
      rw [List.map_cons, if_pos hb, List.find?_cons_of_pos _ (by exact hb)]
      rfl
    | false =>
      simp only [List.any_cons, hb, Bool.false_or] at h
      rw [List.map_cons, if_neg (by simp [hb]), List.find?_cons_of_neg _ (by simp [hb])]
      exact ih h

/-- `renumber` does not change socket ids. -/
theorem renumber_map_socketId : ∀ (i : Nat) (ps : List Player),
    (renumber i ps).map (·.socketId) = ps.map (·.socketId)
  | _, [] => rfl
  | i, p :: ps => by
    show p.socketId :: (renumber (i + 1) ps).map (·.socketId) = p.socketId :: ps.map (·.socketId)
    rw [renumber_map_socketId (i + 1) ps]

/-- Finding and splicing the first member with a given socket id behaves like
`erase` on the socket-id projection. -/
theorem findIdx_erase_spec {sid : String} : ∀ (ps : List Player),
    ps.any (fun p => p.socketId == sid) = true →
    ∃ i p, ps.findIdx? (fun q => q.socketId == sid) = some i ∧
      ps.get? i = some p ∧ p.socketId = sid ∧
      (ps.eraseIdx i).map (·.socketId) = (ps.map (·.socketId)).erase sid := by
  intro ps
  induction ps with
  | nil => intro h; cases h
  | cons x xs ih =>
    intro h
    by_cases hx : (x.socketId == sid) = true
    · refine ⟨0, x, ?_, rfl, eq_of_beq hx, ?_⟩
      · rw [List.findIdx?_cons, if_pos hx]
      · rw [List.eraseIdx_cons_zero, List.map_cons, List.erase_cons, hx]
        simp
    · have h' : xs.any (fun p => p.socketId == sid) = true := by
        rcases Bool.or_eq_true_iff.mp (by rwa [List.any_cons] at h) with h2 | h2
        · exact absurd h2 (by simpa using hx)
        · exact h2
      obtain ⟨i, p, hfi, hget, hsid, herase⟩ := ih h'
      refine ⟨i + 1, p, ?_, by simpa using hget, hsid, ?_⟩
      · rw [List.findIdx?_cons, if_neg hx, List.findIdx?_succ, hfi]
        rfl
      · rw [List.eraseIdx_cons_succ, List.map_cons, List.map_cons, List.erase_cons,
          show (x.socketId == sid) = false from Bool.eq_false_iff.mpr (by simpa using hx),
          herase]
        simp

/-- Claim C3 — When the host's connection disconnects, its room is destroyed (no
longer retrievable by its code) and exactly a `roomClosed` event with reason
"Host disconnected" is emitted; when a non-host member disconnects, only that
player is removed (the member socket-id list loses exactly the first
occurrence of the leaver's id), the room survives under its code, and a
`playerLeft` event is emitted — so a room never outlives its host. -/
theorem disconnect_room_lifecycle (m : RoomManager) (sid : String) (room : Room)
    (hcons : ∀ e ∈ m.rooms, e.2.roomCode = e.1)
    (hfind : m.findRoomBySocketId sid = some room) :
    (room.hostSocketId = sid →
      (handleDisconnect m sid).1.getRoom room.roomCode = none ∧
      (handleDisconnect m sid).2 = [ServerEvent.roomClosed room.roomCode "Host disconnected"]) ∧
    (room.hostSocketId ≠ sid →
      ∃ player,
        (room.removePlayer sid).2 = some player ∧ player.socketId = sid ∧
        ((room.removePlayer sid).1).players.map (·.socketId)
          = (room.players.map (·.socketId)).erase sid ∧
        (handleDisconnect m sid).1.getRoom room.roomCode = some (room.removePlayer sid).1 ∧
        (handleDisconnect m sid).2
          = [ServerEvent.playerLeft room.roomCode player.playerNumber
              ((room.removePlayer sid).1).players.length ((room.removePlayer sid).1).players]) := by
  obtain ⟨e, hesome, he2⟩ := Option.map_eq_some'.mp hfind
  have hemem : e ∈ m.rooms := List.mem_of_find?_eq_some hesome
  have hepred := List.find?_some hesome
  constructor
  · intro hhost
    unfold handleDisconnect
    rw [hfind]
    dsimp only
    rw [if_pos (beq_iff_eq.mpr hhost)]
    exact ⟨getRoom_deleteRoom m room.roomCode, rfl⟩
  · intro hhost
    have hbeq : (room.hostSocketId == sid) = false := beq_eq_false_iff_ne.mpr hhost
    have hhas : room.hasPlayer sid = true := by
      rw [he2, hbeq] at hepred
      simpa using hepred
    obtain ⟨i, player, hfi, hget, hsid, herase⟩ :=
      findIdx_erase_spec room.players hhas
    have hremove : room.removePlayer sid
        = ({ room with players := renumber 0 (room.players.eraseIdx i) }, room.players.get? i) := by
      unfold Room.removePlayer
      rw [hfi]
    have hsnd : (room.removePlayer sid).2 = some player := by rw [hremove, hget]
    have hcode : m.hasCode room.roomCode = true := by
      have h1 : room.roomCode = e.1 := he2 ▸ hcons e hemem
      rw [RoomManager.hasCode, List.any_eq_true]
      exact ⟨e, hemem, beq_iff_eq.mpr h1.symm⟩
    refine ⟨player, hsnd, hsid, ?_, ?_, ?_⟩
    · rw [hremove]
      show (renumber 0 (room.players.eraseIdx i)).map (·.socketId)
        = (room.players.map (·.socketId)).erase sid
      rw [renumber_map_socketId, herase]
    · unfold handleDisconnect
      rw [hfind]
      dsimp only
      rw [if_neg (by simp [hbeq]), hsnd]
      exact getRoom_updateRoom m room.roomCode _ hcode
    · unfold handleDisconnect
      rw [hfind]
      dsimp only
      rw [if_neg (by simp [hbeq]), hsnd]

/-- Witness for C3: a registry with one room whose host is "h" and whose only
member is "a"; both the host-disconnect and member-disconnect branches are
exercised. -/
theorem disconnect_room_lifecycle_witness :
    ((handleDisconnect
        (RoomManager.mk [("111111", ((Room.create "111111" "h" 0).addPlayer "a" "Alice").1)])
        "h").1.getRoom "111111" = none ∧
      (handleDisconnect
        (RoomManager.mk [("111111", ((Room.create "111111" "h" 0).addPlayer "a" "Alice").1)])
        "h").2 = [ServerEvent.roomClosed "111111" "Host disconnected"]) ∧
    (∃ player,
      ((((Room.create "111111" "h" 0).addPlayer "a" "Alice").1).removePlayer "a").2 = some player ∧
      player.socketId = "a" ∧
      (((((Room.create "111111" "h" 0).addPlayer "a" "Alice").1).removePlayer "a").1).players.map
          (·.socketId)
        = (((((Room.create "111111" "h" 0).addPlayer "a" "Alice").1)).players.map
            (·.socketId)).erase "a" ∧
      (handleDisconnect
        (RoomManager.mk [("111111", ((Room.create "111111" "h" 0).addPlayer "a" "Alice").1)])
        "a").1.getRoom "111111"
        = some ((((Room.create "111111" "h" 0).addPlayer "a" "Alice").1).removePlayer "a").1 ∧
      (handleDisconnect
        (RoomManager.mk [("111111", ((Room.create "111111" "h" 0).addPlayer "a" "Alice").1)])
        "a").2
        = [ServerEvent.playerLeft "111111" player.playerNumber
            (((((Room.create "111111" "h" 0).addPlayer "a" "Alice").1).removePlayer "a").1).players.length
            (((((Room.create "111111" "h" 0).addPlayer "a" "Alice").1).removePlayer "a").1).players]) := by
  constructor
  · have h1 := (disconnect_room_lifecycle
      (RoomManager.mk [("111111", ((Room.create "111111" "h" 0).addPlayer "a" "Alice").1)])
      "h" ((Room.create "111111" "h" 0).addPlayer "a" "Alice").1
      (by decide) (by decide)).1 rfl
    exact h1
  · have h2 := (disconnect_room_lifecycle
      (RoomManager.mk [("111111", ((Room.create "111111" "h" 0).addPlayer "a" "Alice").1)])
      "a" ((Room.create "111111" "h" 0).addPlayer "a" "Alice").1
      (by decide) (by decide)).2 (by decide)
    exact h2

/-! ## Input validation — server.js `validateInput` and
public/js/shared/inputBuffer.js `InputValidator` -/

/-- A JavaScript value as it can arrive in an input payload.  `nan` is the
number `NaN`; `toNumber` returns `none` for NaN.  String-to-number coercion of
non-empty strings is modelled as NaN (no claim exercises numeric string
literals). -/
inductive JSVal where
  | num (q : ℚ)
  | nan
  | boolV (b : Bool)
  | strV (s : String)
  | undef
  deriving Repr, DecidableEq

/-- `typeof x === 'number'` (true for `NaN` as well). -/
def JSVal.typeofNumber : JSVal → Bool
  | .num _ => true
  | .nan => true
  | _ => false

/-- `typeof x === 'boolean'`. -/
def JSVal.typeofBoolean : JSVal → Bool
  | .boolV _ => true
  | _ => false

/-- JS truthiness (`Boolean(x)`). -/
def JSVal.toBool : JSVal → Bool
  | .num q => q != 0
  | .nan => false
  | .boolV b => b
  | .strV s => s != ""
  | .undef => false

/-- `Number(x)`, with `none` for NaN. -/
def JSVal.toNumber : JSVal → Option ℚ
  | .num q => some q
  | .nan => none
  | .boolV b => some (if b then 1 else 0)
  | .strV s => if s = "" then some 0 else none
  | .undef => none

/-- `x || d` applied to an already-coerced number (`none` = NaN is falsy,
`0` is falsy). -/
def jsOrNumber (v : Option ℚ) (default : ℚ) : ℚ :=
  match v with
  | some q => if q = 0 then default else q
  | none => default

/-- `a || b` on raw JS values. -/
def jsOr (a b : JSVal) : JSVal :=
  if a.toBool then a else b

/-- An input payload `{steering, brake, timestamp}` as received. -/
structure RawInput where
  steering : JSVal
  brake : JSVal
  timestamp : JSVal
  deriving Repr, DecidableEq

/-! ### C8 — server.js `validateInput` -/

/-- The sanitized sample built by `validateInput` (all fields coerced). -/
structure SanitizedInput where
  steering : ℚ
  brake : Bool
  timestamp : ℚ
  deriving Repr, DecidableEq

/-- The `{valid, errors, sanitized}` result of `validateInput`. -/
structure ValidationResult where
  valid : Bool
  errors : List String
  sanitized : SanitizedInput
  deriving Repr, DecidableEq

/-- Steering branch of `validateInput`: not a number / out of range / NaN
(`NaN` passes the range comparisons, so it reaches the `isNaN` check). -/
def steeringErrors : JSVal → List String
  | .num q => if q < -1 ∨ 1 < q then ["Steering out of range"] else []
  | .nan => ["Steering is NaN"]
  | _ => ["Steering must be a number"]

/-- Brake branch of `validateInput`. -/
def brakeErrors : JSVal → List String
  | .boolV _ => []
  | _ => ["Brake must be a boolean"]

/-- Timestamp branch of `validateInput` (`NaN < 0` is false, so NaN passes). -/
def timestampErrorsServer : JSVal → List String
  | .num q => if q < 0 then ["Timestamp cannot be negative"] else []
  | .nan => []
  | _ => ["Timestamp must be a number"]

/-- `validateInput(input)` from server.js: collects per-field errors and always
produces the sanitized sample
`{steering: Math.max(-1, Math.min(1, Number(s) || 0)), brake: Boolean(b),
timestamp: Number(t) || Date.now()}`. -/
def validateInput (input : RawInput) (now : ℚ) : ValidationResult :=
  let errors := steeringErrors input.steering ++ brakeErrors input.brake
    ++ timestampErrorsServer input.timestamp
  { valid := errors.isEmpty,
    errors := errors,
    sanitized :=
      { steering := max (-1) (min 1 (jsOrNumber input.steering.toNumber 0)),
        brake := input.brake.toBool,
        timestamp := jsOrNumber input.timestamp.toNumber now } }

/-! ### InputValidator (shared client code) -/

/-- The sanitized sample built by `InputValidator.sanitize`: steering passes
through `Math.min`/`Math.max` (NaN-propagating, hence `Option ℚ`), brake is
coerced, but `timestamp: input.timestamp || Date.now()` keeps the raw value. -/
structure VSanitized where
  steering : Option ℚ
  brake : Bool
  timestamp : JSVal
  deriving Repr, DecidableEq

/-- `Math.max` on possibly-NaN numbers. -/
def mathMax (a b : Option ℚ) : Option ℚ :=
  match a, b with
  | some x, some y => some (max x y)
  | _, _ => none

/-- `Math.min` on possibly-NaN numbers. -/
def mathMin (a b : Option ℚ) : Option ℚ :=
  match a, b with
  | some x, some y => some (min x y)
  | _, _ => none

/-- `InputValidator.sanitize(input)`:
`clamp(input.steering || 0, -1, 1)` with `clamp(v, lo, hi) =
Math.min(Math.max(v, lo), hi)`, `Boolean(input.brake)`, and
`input.timestamp || Date.now()`. -/
def InputValidator.sanitize (input : RawInput) (now : ℚ) : VSanitized :=
  { steering := mathMin (mathMax (jsOr input.steering (.num 0)).toNumber (some (-1))) (some 1),
    brake := input.brake.toBool,
    timestamp := jsOr input.timestamp (.num now) }

/-- The per-sender state of an `InputValidator`: `this.lastTimestamp`
(possibly NaN after accepting a NaN timestamp). -/
structure InputValidator where
  lastTimestamp : Option ℚ
  deriving Repr, DecidableEq

/-- The `{valid, errors, sanitized}` result of `InputValidator.validate`. -/
structure VResult where
  valid : Bool
  errors : List String
  sanitized : VSanitized
  deriving Repr, DecidableEq

/-- NaN-propagating subtraction. -/
def subNaN (a b : Option ℚ) : Option ℚ :=
  match a, b with
  | some x, some y => some (x - y)
  | _, _ => none

/-- `d < c` where `d` may be NaN (false on NaN). -/
def ltNaN (a : Option ℚ) (c : ℚ) : Bool :=
  match a with
  | some q => decide (q < c)
  | none => false

/-- `d > c` where `d` may be NaN (false on NaN). -/
def gtNaN (a : Option ℚ) (c : ℚ) : Bool :=
  match a with
  | some q => decide (c < q)
  | none => false

/-- Steering branch of `InputValidator.validate` (no `isNaN` check here: NaN
is `typeof number` and passes both range comparisons). -/
def vSteeringErrors : JSVal → List String
  | .num q => if q < -1 ∨ 1 < q then ["Steering must be between -1 and 1"] else []
  | .nan => []
  | _ => ["Steering must be a number"]

/-- Timestamp branch of `InputValidator.validate`: `delta = timestamp −
lastTimestamp`; below the minimum (0) → past, above the maximum (1000) →
too large; a NaN delta passes both comparisons. -/
def vTimestampErrors (last : Option ℚ) : JSVal → List String
  | .num q =>
    (if ltNaN (subNaN (some q) last) 0 then ["Timestamp cannot be in the past"] else []) ++
    (if gtNaN (subNaN (some q) last) 1000 then
      ["Timestamp delta too large (possible timeout)"] else [])
  | .nan => []
  | _ => ["Timestamp must be a number"]

/-- `InputValidator.validate(input)`: collects the three error lists, updates
`lastTimestamp` only when there are no errors at all, and always returns the
sanitized sample. -/
def InputValidator.validate (v : InputValidator) (input : RawInput) (now : ℚ) :
    VResult × InputValidator :=
  let errors := vSteeringErrors input.steering ++ brakeErrors input.brake
    ++ vTimestampErrors v.lastTimestamp input.timestamp
  let v' := if errors.isEmpty then { lastTimestamp := input.timestamp.toNumber } else v
  ({ valid := errors.isEmpty, errors := errors,
     sanitized := InputValidator.sanitize input now }, v')

/-- Claim C8 — The validator always produces a sanitized sample with steering
clamped into [-1, 1], brake coerced to a boolean, and timestamp defaulted to
receipt time when absent, regardless of validity; steering 2.5 is rejected and
sanitized to 1, steering -3 is sanitized to -1, and brake "yes" is rejected
and sanitized to true (shown for server `validateInput`, with the shared
`InputValidator.sanitize` agreeing on the three concrete samples). -/
theorem validateInput_sanitizes (input : RawInput) (now : ℚ) :
    (-1 ≤ (validateInput input now).sanitized.steering ∧
      (validateInput input now).sanitized.steering ≤ 1) ∧
    (validateInput input now).sanitized.brake = input.brake.toBool ∧
    (input.timestamp = JSVal.undef → (validateInput input now).sanitized.timestamp = now) ∧
    ((validateInput ⟨.num (5/2), .boolV false, .num 100⟩ 200).valid = false ∧
      (validateInput ⟨.num (5/2), .boolV false, .num 100⟩ 200).sanitized.steering = 1) ∧
    (validateInput ⟨.num (-3), .boolV false, .num 100⟩ 200).sanitized.steering = -1 ∧
    ((validateInput ⟨.num 0, .strV "yes", .num 100⟩ 200).valid = false ∧
      (validateInput ⟨.num 0, .strV "yes", .num 100⟩ 200).sanitized.brake = true) ∧
    (InputValidator.sanitize ⟨.num (5/2), .boolV false, .num 100⟩ 200).steering = some 1 ∧
    (InputValidator.sanitize ⟨.num (-3), .boolV false, .num 100⟩ 200).steering = some (-1) ∧
    (InputValidator.sanitize ⟨.num 0, .strV "yes", .num 100⟩ 200).brake = true := by
  refine ⟨⟨le_max_left _ _, max_le (by norm_num) (min_le_left _ _)⟩, rfl,
    fun h => ?_, ⟨?_, ?_⟩, ?_, ⟨?_, ?_⟩, ?_, ?_, ?_⟩
  · show jsOrNumber input.timestamp.toNumber now = now
    rw [h]
    rfl
  all_goals norm_num [validateInput, InputValidator.sanitize, steeringErrors, brakeErrors,
    timestampErrorsServer, jsOrNumber, jsOr, mathMin, mathMax, JSVal.toNumber, JSVal.toBool]
  all_goals decide

/-- Witness for C8 at a concrete input with an absent timestamp. -/
theorem validateInput_sanitizes_witness :
    (validateInput ⟨JSVal.num 0, JSVal.boolV true, JSVal.undef⟩ 777).sanitized.timestamp
      = 777 :=
  (validateInput_sanitizes ⟨JSVal.num 0, JSVal.boolV true, JSVal.undef⟩ 777).2.2.1 rfl

/-- Claim C9 — `InputValidator.validate` rejects a sample whose timestamp is not
numeric, regresses (delta below the non-negative minimum 0 relative to the
last accepted timestamp), or jumps forward by more than 1000 ms; and
`lastTimestamp` is updated exactly on fully valid samples, so a single bad
sample never corrupts subsequent continuity checks. -/
theorem inputValidator_timestamp_continuity (v : InputValidator) (input : RawInput)
    (now : ℚ) :
    (input.timestamp.typeofNumber = false → (v.validate input now).1.valid = false) ∧
    (∀ q l, input.timestamp = .num q → v.lastTimestamp = some l → q - l < 0 →
      (v.validate input now).1.valid = false) ∧
    (∀ q l, input.timestamp = .num q → v.lastTimestamp = some l → 1000 < q - l →
      (v.validate input now).1.valid = false) ∧
    ((v.validate input now).1.valid = false → (v.validate input now).2 = v) ∧
    ((v.validate input now).1.valid = true →
      (v.validate input now).2.lastTimestamp = input.timestamp.toNumber) := by
  unfold InputValidator.validate
  dsimp only
  refine ⟨?_, ?_, ?_, ?_, ?_⟩
  · intro h
    cases ht : input.timestamp <;> simp_all [JSVal.typeofNumber, vTimestampErrors]
  · intro q l hq hl hlt
    rw [hq]
    have h1 : ltNaN (subNaN (some q) (some l)) 0 = true := by
      simp [ltNaN, subNaN, hlt]
    simp [vTimestampErrors, hl, h1]
  · intro q l hq hl hgt
    rw [hq]
    have h2 : gtNaN (subNaN (some q) (some l)) 1000 = true := by
      simp [gtNaN, subNaN, hgt]
    simp [vTimestampErrors, hl, h2]
  · intro h
    rw [if_neg (fun hc => Bool.false_ne_true (h.symm.trans hc))]
  · intro h
    rw [if_pos h]

/-- Witness for C9: a regressed timestamp is rejected and leaves the
validator state unchanged. -/
theorem inputValidator_timestamp_continuity_witness :
    ((InputValidator.mk (some 0)).validate
        ⟨JSVal.num 0, JSVal.boolV true, JSVal.num (-5)⟩ 0).1.valid = false :=
  (inputValidator_timestamp_continuity (InputValidator.mk (some 0))
    ⟨JSVal.num 0, JSVal.boolV true, JSVal.num (-5)⟩ 0).2.1 (-5) 0 rfl rfl (by norm_num)

end BeachBuggy
